import Mathlib

/-!
Verification of the smart-bell identification service (ai_service.py).

The service is a thin orchestration layer over an external face-recognition
provider.  We embed it shallowly: the filesystem and the provider are an
explicit environment of pure functions, JSON values are the inductive
type PyVal, and the HTTP handler becomes a total function returning
`Except Unit Resp`, where `.error ()` stands for an unhandled Python
exception (HTTP 500) and `.ok r` for a normal HTTP response `r`.
-/

/-- JSON-ish Python values as they appear in a parsed request body:
strings, integers and (nested) lists.  These are the shapes the claims
exercise; other JSON shapes play no role in the handler logic modelled
here. -/
inductive PyVal where
  | str : String → PyVal
  | int : Int → PyVal
  | list : List PyVal → PyVal

/-- Python `isinstance(v, list)`. -/
def PyVal.isList : PyVal → Bool
  | .list _ => true
  | _ => false

/-- The environment: the filesystem and the external capabilities the
service delegates to (`os.path.isdir`, `os.listdir`, `os.path.join`,
Python `str`, and `face_recognition.load_image_file` composed with
`face_recognition.face_encodings` and `face_recognition.compare_faces`
at the fixed tolerance 0.6).  `E` is the opaque type of face embeddings. -/
structure Env (E : Type) where
  /-- `os.path.isdir p` -/
  isDir : String → Bool
  /-- `os.listdir p` (meaningful when `isDir p = true`; calling
  `os.listdir` on a non-directory raises, which the handler models
  explicitly). -/
  listDir : String → List String
  /-- `os.path.join a b` -/
  pathJoin : String → String → String
  /-- Python `str(v)` -/
  pyStr : PyVal → String
  /-- `face_recognition.face_encodings(face_recognition.load_image_file(p))`:
  zero or more embeddings found in the image at path `p`. -/
  faceEncodings : String → List E
  /-- `face_recognition.compare_faces(known, probe, tolerance=0.6)`:
  one boolean per known embedding. -/
  compareFaces : List E → E → List Bool

/-- Python `s.endswith(suf)`: case-sensitive suffix match, modelled on
the character sequences of the two strings. -/
def strEndsWith (s suf : String) : Bool :=
  suf.data.isSuffixOf s.data

/-- Python `filename.endswith((".jpg", ".png", ".jpeg"))`: case-sensitive
suffix match against the three image extensions. -/
def hasImageExt (f : String) : Bool :=
  strEndsWith f ".jpg" || strEndsWith f ".png" || strEndsWith f ".jpeg"

/-- Inner loop of `load_specific_known_faces`: for one allowed person id
whose folder exists, walk the folder listing; every image-extension file
whose encoding list is non-empty contributes its first encoding to the
first output list and the (unconverted) person id to the second. -/
def loadFolder {E : Type} (env : Env E) (pid : PyVal) (folder : String) :
    List String → List E × List PyVal
  | [] => ([], [])
  | f :: fs =>
    let rest := loadFolder env pid folder fs
    if hasImageExt f then
      match env.faceEncodings (env.pathJoin folder f) with
      | [] => rest
      | e :: _ => (e :: rest.1, pid :: rest.2)
    else rest

/-- Outer loop of `load_specific_known_faces`: iterate allowed ids in
order; an id whose folder `base/str(id)` is not a directory is skipped. -/
def loadIds {E : Type} (env : Env E) (base : String) :
    List PyVal → List E × List PyVal
  | [] => ([], [])
  | pid :: rest =>
    let folder := env.pathJoin base (env.pyStr pid)
    let cur :=
      if env.isDir folder then loadFolder env pid folder (env.listDir folder)
      else ([], [])
    let r := loadIds env base rest
    (cur.1 ++ r.1, cur.2 ++ r.2)

/-- `load_specific_known_faces(base_library_path, allowed_ids)`: returns
the pair (known_face_encodings, known_face_names); if the base library
path is not a directory it returns two empty lists. -/
def load_specific_known_faces {E : Type} (env : Env E) (base : String)
    (allowed : List PyVal) : List E × List PyVal :=
  if env.isDir base then loadIds env base allowed else ([], [])

/-- An HTTP response of the handler: an HTTP 400 body carrying an error
message, or an HTTP 200 completion carrying status "complete", an
identification value, and an optional reason string. -/
inductive Resp where
  | badRequest : String → Resp
  | complete : PyVal → Option String → Resp

/-- Probe-scan loop of `identify_person_secure`: walk the probe-directory
listing; for the first image-extension file with a non-empty encoding
list whose first encoding matches some known encoding, return the known
name at the first matching index (an out-of-range index would raise,
modelled `.error ()`); if the listing is exhausted, return "Unknown". -/
def scanProbes {E : Type} (env : Env E) (encs : List E) (names : List PyVal)
    (dir : String) : List String → Except Unit Resp
  | [] => .ok (.complete (.str "Unknown") none)
  | f :: fs =>
    if hasImageExt f then
      match env.faceEncodings (env.pathJoin dir f) with
      | [] => scanProbes env encs names dir fs
      | e :: _ =>
        let ms := env.compareFaces encs e
        if ms.contains true then
          match names.get? (ms.indexOf true) with
          | some name => .ok (.complete name none)
          | none => .error ()
        else scanProbes env encs names dir fs
    else scanProbes env encs names dir fs

/-- Body of `identify_person_secure` after field extraction: the
`isinstance(allowed_visitor_ids, list)` check, the enrollment load, the
empty-known-set early return, and the probe scan.  A non-string path
where the code hands the value to `os.path.isdir` or `os.listdir`, and a
probe path that is not a directory, raise in Python and are modelled as
`.error ()`. -/
def handleValidated {E : Type} (env : Env E) (nip kvp avi : PyVal) :
    Except Unit Resp :=
  match avi with
  | .list ids =>
    match kvp with
    | .str kvps =>
      if (load_specific_known_faces env kvps ids).1.isEmpty then
        .ok (.complete (.str "Unknown")
          (some "No valid faces found for the provided visitor IDs."))
      else
        match nip with
        | .str nips =>
          if env.isDir nips then
            scanProbes env (load_specific_known_faces env kvps ids).1
              (load_specific_known_faces env kvps ids).2 nips (env.listDir nips)
          else .error ()
        | _ => .error ()
    | _ => .error ()
  | _ => .ok (.badRequest "\x27allowed_visitor_ids\x27 must be a list")

/-- The `/identify_secure` POST handler `identify_person_secure`.  The
request body is the result of `request.get_json()`: `none` when parsing
produced Python `None`, otherwise the key/value pairs of the JSON object.
A falsy body (`None` or the empty object) or a body missing any of the
three required keys yields HTTP 400 "Missing required parameters". -/
def identify_person_secure {E : Type} (env : Env E)
    (data : Option (List (String × PyVal))) : Except Unit Resp :=
  match data with
  | none => .ok (.badRequest "Missing required parameters")
  | some d =>
    if d.isEmpty
        || (d.lookup "new_images_path").isNone
        || (d.lookup "known_visitors_path").isNone
        || (d.lookup "allowed_visitor_ids").isNone then
      .ok (.badRequest "Missing required parameters")
    else
      match d.lookup "new_images_path", d.lookup "known_visitors_path",
            d.lookup "allowed_visitor_ids" with
      | some nip, some kvp, some avi => handleValidated env nip kvp avi
      | _, _, _ => .ok (.badRequest "Missing required parameters")

/-- Spec-side description of the Known Set records contributed by one
existing per-person folder: the folder listing in order, keeping
image-extension files with at least one embedding, each contributing the
pair (label, first embedding). -/
def folderSpec {E : Type} (env : Env E) (pid : PyVal) (folder : String)
    (fs : List String) : List (PyVal × E) :=
  fs.filterMap (fun f =>
    if hasImageExt f then
      match env.faceEncodings (env.pathJoin folder f) with
      | [] => none
      | e :: _ => some (pid, e)
    else none)

/-- Spec-side description of the Known Set (section 4.1 output guarantee):
one pass over `allowed_ids` in order; for each id whose folder exists,
the records of that folder in per-directory enumeration order. -/
def knownSetSpec {E : Type} (env : Env E) (base : String)
    (allowed : List PyVal) : List (PyVal × E) :=
  if env.isDir base then
    allowed.flatMap (fun pid =>
      if env.isDir (env.pathJoin base (env.pyStr pid)) then
        folderSpec env pid (env.pathJoin base (env.pyStr pid))
          (env.listDir (env.pathJoin base (env.pyStr pid)))
      else [])
  else []

/-- A probe file produces a match against the known encodings `encs`:
it has an image extension, its encoding list is non-empty, and the
comparison of its first encoding against `encs` contains `true`. -/
def probeMatches {E : Type} (env : Env E) (encs : List E) (dir f : String) :
    Bool :=
  hasImageExt f &&
    (match env.faceEncodings (env.pathJoin dir f) with
     | [] => false
     | e :: _ => (env.compareFaces encs e).contains true)

/-- A request-sequence model for idempotence: the service handles each
request in order against the same (unchanged) filesystem and provider
environment; the handler keeps no state between requests. -/
def serveSequence {E : Type} (env : Env E) :
    List (Option (List (String × PyVal))) → List (Except Unit Resp)
  | [] => []
  | d :: ds => identify_person_secure env d :: serveSequence env ds

/-- A concrete test environment over `Nat` embeddings: a library
`lib/7/a.jpg` (embedding 1) and `lib/9/b.jpg` (embedding 2), and a probe
directory `probe/p.jpg` whose image carries embedding 2; two embeddings
compare as a match exactly when they are equal. -/
def envW : Env Nat where
  isDir := fun p => p == "lib" || p == "lib/7" || p == "lib/9" || p == "probe"
  listDir := fun p =>
    if p == "lib/7" then ["a.jpg"]
    else if p == "lib/9" then ["b.jpg"]
    else if p == "probe" then ["p.jpg"] else []
  pathJoin := fun a b => a ++ "/" ++ b
  pyStr := fun v =>
    match v with
    | .str s => s
    | .int n => toString n
    | .list _ => "[]"
  faceEncodings := fun p =>
    if p == "lib/7/a.jpg" then [1]
    else if p == "lib/9/b.jpg" then [2]
    else if p == "probe/p.jpg" then [2] else []
  compareFaces := fun ks e => ks.map (fun k => k == e)

/-- Scenario of spec section 8, property 6: the library holds faces of
persons 7 and 9, the probe shows person 9, but the allow-list is only
["7"]: the verdict is "Unknown" although a visually matching face for 9
exists on disk. -/
theorem scenario_allow_list_excludes :
    identify_person_secure envW (some
      [("new_images_path", .str "probe"),
       ("known_visitors_path", .str "lib"),
       ("allowed_visitor_ids", .list [.str "7"])]) =
    .ok (.complete (.str "Unknown") none) := rfl

/-- With person 9 on the allow-list, the same probe is identified as
"9". -/
theorem scenario_allow_list_admits :
    identify_person_secure envW (some
      [("new_images_path", .str "probe"),
       ("known_visitors_path", .str "lib"),
       ("allowed_visitor_ids", .list [.str "9"])]) =
    .ok (.complete (.str "9") none) := rfl

/-! ### Helper lemmas -/

/-- Every name emitted by the inner enrollment loop is the person id the
loop was called with. -/
theorem loadFolder_names_eq {E : Type} (env : Env E) (pid : PyVal)
    (folder : String) (fs : List String) :
    ∀ l ∈ (loadFolder env pid folder fs).2, l = pid := by
  induction fs with
  | nil => intro l h; simp [loadFolder] at h
  | cons f fs ih =>
    intro l h
    simp only [loadFolder] at h
    by_cases hext : hasImageExt f = true
    · rw [if_pos hext] at h
      cases henc : env.faceEncodings (env.pathJoin folder f) with
      | nil => rw [henc] at h; exact ih l h
      | cons e es =>
        rw [henc] at h
        rcases List.mem_cons.mp h with h | h
        · exact h
        · exact ih l h
    · rw [if_neg hext] at h; exact ih l h

/-- Every name emitted by the outer enrollment loop is an element of the
allowed-ids list. -/
theorem loadIds_names_sub {E : Type} (env : Env E) (base : String)
    (allowed : List PyVal) :
    ∀ l ∈ (loadIds env base allowed).2, l ∈ allowed := by
  induction allowed with
  | nil => intro l h; simp [loadIds] at h
  | cons pid rest ih =>
    intro l h
    simp only [loadIds, List.mem_append] at h
    rcases h with h | h
    · have hl : l = pid := by
        revert h
        split
        · exact fun h => loadFolder_names_eq env pid _ _ l h
        · intro h; simp at h
      rw [hl]
      exact List.mem_cons_self pid rest
    · exact List.mem_cons_of_mem pid (ih l h)

/-- Every known-face name returned by `load_specific_known_faces` is an
element of the allowed-ids list. -/
theorem load_names_sub {E : Type} (env : Env E) (base : String)
    (allowed : List PyVal) :
    ∀ l ∈ (load_specific_known_faces env base allowed).2, l ∈ allowed := by
  intro l h
  simp only [load_specific_known_faces] at h
  split at h
  · exact loadIds_names_sub env base allowed l h
  · simp at h

/-- The inner enrollment loop appends to the two lists in lockstep. -/
theorem loadFolder_length {E : Type} (env : Env E) (pid : PyVal)
    (folder : String) (fs : List String) :
    (loadFolder env pid folder fs).1.length =
      (loadFolder env pid folder fs).2.length := by
  induction fs with
  | nil => rfl
  | cons f fs ih =>
    simp only [loadFolder]
    split
    · split
      · exact ih
      · simpa using ih
    · exact ih

/-- The outer enrollment loop preserves the lockstep-length invariant. -/
theorem loadIds_length {E : Type} (env : Env E) (base : String)
    (allowed : List PyVal) :
    (loadIds env base allowed).1.length = (loadIds env base allowed).2.length := by
  induction allowed with
  | nil => rfl
  | cons pid rest ih =>
    simp only [loadIds, List.length_append]
    split
    · rw [loadFolder_length, ih]
    · simpa using ih

/-- The two lists returned by `load_specific_known_faces` always have
equal length. -/
theorem load_length {E : Type} (env : Env E) (base : String)
    (allowed : List PyVal) :
    (load_specific_known_faces env base allowed).1.length =
      (load_specific_known_faces env base allowed).2.length := by
  simp only [load_specific_known_faces]
  split
  · exact loadIds_length env base allowed
  · rfl

/-- In a list of booleans, every position strictly before the index of
the first `true` holds `false`. -/
theorem indexOf_true_earliest (l : List Bool) (j : Nat)
    (hj : j < l.indexOf true) : l.get? j = some false := by
  induction l generalizing j with
  | nil => simp [List.indexOf] at hj
  | cons b bs ih =>
    cases b with
    | true => simp [List.indexOf_cons_self] at hj
    | false =>
      rw [List.indexOf_cons_ne _ (by simp)] at hj
      cases j with
      | zero => rfl
      | succ j => exact ih j (Nat.lt_of_succ_lt_succ hj)

/-- If position `i` holds `true` and no earlier position does, then `i`
is exactly the index of the first `true`. -/
theorem indexOf_true_unique (l : List Bool) (i : Nat)
    (hi : l.get? i = some true) (hmin : ∀ j < i, l.get? j ≠ some true) :
    l.indexOf true = i := by
  have hmem : true ∈ l := List.get?_mem hi
  have hlt : l.indexOf true < l.length := List.indexOf_lt_length.mpr hmem
  rcases Nat.lt_trichotomy (l.indexOf true) i with h | h | h
  · exfalso
    apply hmin _ h
    rw [List.get?_eq_get hlt]
    simp [List.indexOf_get]
  · exact h
  · exfalso
    have := indexOf_true_earliest l i h
    rw [hi] at this
    simp at this

/-- A successful association-list lookup means the list is non-empty. -/
theorem lookup_ne_nil {d : List (String × PyVal)} {k : String} {v : PyVal}
    (h : d.lookup k = some v) : d.isEmpty = false := by
  cases d with
  | nil => simp [List.lookup] at h
  | cons p rest => rfl

/-- Whatever completion the probe scan returns, the identification is
either the literal "Unknown" (with no reason) or one of the known names. -/
theorem scanProbes_cases {E : Type} (env : Env E) (encs : List E)
    (names : List PyVal) (dir : String) (files : List String)
    {ident : PyVal} {r : Option String}
    (h : scanProbes env encs names dir files = .ok (.complete ident r)) :
    (ident = .str "Unknown" ∧ r = none) ∨ ident ∈ names := by
  induction files with
  | nil =>
    simp only [scanProbes] at h
    cases h
    exact Or.inl ⟨rfl, rfl⟩
  | cons f fs ih =>
    simp only [scanProbes] at h
    split at h
    · split at h
      · exact ih h
      · split at h
        · split at h
          · cases h
            rename_i hget
            exact Or.inr (List.get?_mem hget)
          · cases h
        · exact ih h
    · exact ih h

/-- The inner enrollment loop computes exactly the per-folder spec-side
records, split into the two parallel lists. -/
theorem loadFolder_eq_spec {E : Type} (env : Env E) (pid : PyVal)
    (folder : String) (fs : List String) :
    loadFolder env pid folder fs =
      ((folderSpec env pid folder fs).map Prod.snd,
       (folderSpec env pid folder fs).map Prod.fst) := by
  induction fs with
  | nil => rfl
  | cons f fs ih =>
    simp only [loadFolder, folderSpec, List.filterMap_cons]
    by_cases hext : hasImageExt f = true
    · rw [if_pos hext, if_pos hext]
      cases henc : env.faceEncodings (env.pathJoin folder f) with
      | nil =>
        simpa only [folderSpec] using ih
      | cons e es =>
        simp only [List.map_cons]
        rw [ih]
        rfl
    · rw [if_neg hext, if_neg hext]
      simpa only [folderSpec] using ih

/-- The outer enrollment loop computes exactly the flattened spec-side
records of the existing folders, split into the two parallel lists. -/
theorem loadIds_eq_spec {E : Type} (env : Env E) (base : String)
    (allowed : List PyVal) :
    loadIds env base allowed =
      ((allowed.flatMap (fun pid =>
          if env.isDir (env.pathJoin base (env.pyStr pid)) then
            folderSpec env pid (env.pathJoin base (env.pyStr pid))
              (env.listDir (env.pathJoin base (env.pyStr pid)))
          else [])).map Prod.snd,
       (allowed.flatMap (fun pid =>
          if env.isDir (env.pathJoin base (env.pyStr pid)) then
            folderSpec env pid (env.pathJoin base (env.pyStr pid))
              (env.listDir (env.pathJoin base (env.pyStr pid)))
          else [])).map Prod.fst) := by
  induction allowed with
  | nil => rfl
  | cons pid rest ih =>
    simp only [loadIds, List.flatMap_cons, List.map_append]
    rw [ih]
    by_cases hdir : env.isDir (env.pathJoin base (env.pyStr pid)) = true
    · rw [if_pos hdir, if_pos hdir, loadFolder_eq_spec]
    · rw [if_neg hdir, if_neg hdir]
      rfl

/-- When all three required keys are present, the handler reduces to the
validated body applied to the three looked-up values. -/
theorem identify_eq_handleValidated {E : Type} (env : Env E)
    (d : List (String × PyVal)) (nip kvp avi : PyVal)
    (h1 : d.lookup "new_images_path" = some nip)
    (h2 : d.lookup "known_visitors_path" = some kvp)
    (h3 : d.lookup "allowed_visitor_ids" = some avi) :
    identify_person_secure env (some d) = handleValidated env nip kvp avi := by
  simp only [identify_person_secure, h1, h2, h3, lookup_ne_nil h1,
    Option.isNone_some, Bool.or_self, Bool.or_false, Bool.false_or]
  simp

/-- If the loaded known-encodings list is empty, the handler returns the
"no valid faces" completion, for any probe path and any environment. -/
theorem handler_reason_of_empty {E : Type} (env : Env E)
    (d : List (String × PyVal)) (nip kvp avi : PyVal) (kvps : String)
    (ids : List PyVal)
    (h1 : d.lookup "new_images_path" = some nip)
    (h2 : d.lookup "known_visitors_path" = some kvp)
    (h3 : d.lookup "allowed_visitor_ids" = some avi)
    (havi : avi = .list ids) (hkvp : kvp = .str kvps)
    (hemp : (load_specific_known_faces env kvps ids).1 = []) :
    identify_person_secure env (some d) =
      .ok (.complete (.str "Unknown")
        (some "No valid faces found for the provided visitor IDs.")) := by
  rw [identify_eq_handleValidated env d nip kvp avi h1 h2 h3, havi, hkvp]
  simp only [handleValidated, hemp, List.isEmpty_nil, if_true]

/-- A probe file that does not produce a match is skipped: the scan of
the remaining files decides the result. -/
theorem scanProbes_skip {E : Type} (env : Env E) (encs : List E)
    (names : List PyVal) (dir f : String) (fs : List String)
    (h : probeMatches env encs dir f = false) :
    scanProbes env encs names dir (f :: fs) = scanProbes env encs names dir fs := by
  simp only [probeMatches, Bool.and_eq_false_iff] at h
  simp only [scanProbes]
  rcases h with h | h
  · rw [if_neg (by simp [h])]
  · by_cases hext : hasImageExt f = true
    · rw [if_pos hext]
      cases henc : env.faceEncodings (env.pathJoin dir f) with
      | nil => rfl
      | cons e es =>
        rw [henc] at h
        have hc : (env.compareFaces encs e).contains true = false := h
        have hnm : true ∉ env.compareFaces encs e := by simpa using hc
        simp [hc, hnm]
    · rw [if_neg hext]

/-- A probe file at the head of the listing that does produce a match
returns the known name at the first matching index immediately. -/
theorem scanProbes_head_match {E : Type} (env : Env E) (encs : List E)
    (names : List PyVal) (dir f : String) (fs : List String) (e : E)
    (es : List E) (nm : PyVal)
    (hext : hasImageExt f = true)
    (henc : env.faceEncodings (env.pathJoin dir f) = e :: es)
    (hcon : (env.compareFaces encs e).contains true = true)
    (hnm : names.get? ((env.compareFaces encs e).indexOf true) = some nm) :
    scanProbes env encs names dir (f :: fs) = .ok (.complete nm none) := by
  simp only [scanProbes, hext, if_true, henc, hcon, hnm]

/-- Serving a request sequence is mapping the (stateless) handler over
it. -/
theorem serveSequence_eq_map {E : Type} (env : Env E)
    (reqs : List (Option (List (String × PyVal)))) :
    serveSequence env reqs = reqs.map (identify_person_secure env) := by
  induction reqs with
  | nil => rfl
  | cons d ds ih => simp only [serveSequence, List.map_cons, ih]

/-- Any completion the validated handler body returns carries either the
literal "Unknown" or one of the allowed ids as its identification. -/
theorem handleValidated_scoped {E : Type} (env : Env E) (nip kvp : PyVal)
    (ids : List PyVal) (ident : PyVal) (r : Option String)
    (h : handleValidated env nip kvp (.list ids) = .ok (.complete ident r)) :
    ident = .str "Unknown" ∨ ident ∈ ids := by
  cases kvp with
  | str kvps =>
    cases nip with
    | str nips =>
      simp only [handleValidated] at h
      by_cases hemp : (load_specific_known_faces env kvps ids).1.isEmpty = true
      · rw [if_pos hemp] at h
        cases h
        exact Or.inl rfl
      · rw [if_neg hemp] at h
        by_cases hdir : env.isDir nips = true
        · rw [if_pos hdir] at h
          rcases scanProbes_cases env _ _ nips _ h with ⟨h1, _⟩ | h1
          · exact Or.inl h1
          · exact Or.inr (load_names_sub env kvps ids ident h1)
        · rw [if_neg hdir] at h; cases h
    | int n =>
      simp only [handleValidated] at h
      by_cases hemp : (load_specific_known_faces env kvps ids).1.isEmpty = true
      · rw [if_pos hemp] at h
        cases h
        exact Or.inl rfl
      · rw [if_neg hemp] at h; cases h
    | list l =>
      simp only [handleValidated] at h
      by_cases hemp : (load_specific_known_faces env kvps ids).1.isEmpty = true
      · rw [if_pos hemp] at h
        cases h
        exact Or.inl rfl
      · rw [if_neg hemp] at h; cases h
  | int n => simp only [handleValidated] at h; cases h
  | list l => simp only [handleValidated] at h; cases h

/-- C1: allow-list scoping invariant.  Every known-face name loaded by
`load_specific_known_faces` is an element of the supplied allowed-ids
list, and consequently every identification the handler completes with
is either the literal "Unknown" or an element of the allow-list of the
request; an identity outside the allow-list is never loaded and never
returned, whatever is on disk. -/
theorem c1_allow_list_scoping :
    (∀ (E : Type) (env : Env E) (base : String) (allowed : List PyVal),
       ∀ l ∈ (load_specific_known_faces env base allowed).2, l ∈ allowed) ∧
    (∀ (E : Type) (env : Env E) (d : List (String × PyVal))
       (ids : List PyVal) (ident : PyVal) (r : Option String),
       d.lookup "allowed_visitor_ids" = some (.list ids) →
       identify_person_secure env (some d) = .ok (.complete ident r) →
       ident = .str "Unknown" ∨ ident ∈ ids) := by
  constructor
  · intro E env base allowed l h
    exact load_names_sub env base allowed l h
  · intro E env d ids ident r havi hrun
    simp only [identify_person_secure] at hrun
    split at hrun
    · cases hrun
    · rename_i hcond
      cases h1 : d.lookup "new_images_path" with
      | none => rw [h1] at hcond; simp at hcond
      | some nip =>
        cases h2 : d.lookup "known_visitors_path" with
        | none => rw [h2] at hcond; simp at hcond
        | some kvp =>
          rw [h1, h2, havi] at hrun
          exact handleValidated_scoped env nip kvp ids ident r hrun

/-- C2: first-match-wins over the Known Set.  When the probe image at
the head of the listing yields an embedding whose comparison list holds
`true` at position `i` and at no earlier position, the scan returns the
known-face name stored at that same position `i`, whatever the boolean
(and hence whatever the underlying distance) at any later position. -/
theorem c2_first_match_wins :
    ∀ (E : Type) (env : Env E) (encs : List E) (names : List PyVal)
      (dir f : String) (fs : List String) (e : E) (es : List E)
      (i : Nat) (nm : PyVal),
      hasImageExt f = true →
      env.faceEncodings (env.pathJoin dir f) = e :: es →
      (env.compareFaces encs e).get? i = some true →
      (∀ j < i, (env.compareFaces encs e).get? j ≠ some true) →
      names.get? i = some nm →
      scanProbes env encs names dir (f :: fs) = .ok (.complete nm none) := by
  intro E env encs names dir f fs e es i nm hext henc hi hmin hnm
  have hidx : (env.compareFaces encs e).indexOf true = i :=
    indexOf_true_unique _ i hi hmin
  have hcon : (env.compareFaces encs e).contains true = true := by
    have hmem : true ∈ env.compareFaces encs e := List.get?_mem hi
    simpa using hmem
  exact scanProbes_head_match env encs names dir f fs e es nm hext henc hcon
    (by rw [hidx]; exact hnm)

/-- C3: probe-scan termination and exhaustion.  First conjunct: if no
file before `f` in the listing produces a match and `f` does, the scan
returns the matched label and the files after `f` are irrelevant (the
result is the same for every suffix `post`).  Second conjunct: if no
file in the listing produces a match — in particular if the listing is
empty, has no image-extension file, or no probe yields an embedding —
the scan returns the "Unknown" completion. -/
theorem c3_probe_scan_termination :
    (∀ (E : Type) (env : Env E) (encs : List E) (names : List PyVal)
       (dir : String) (pre : List String) (f : String) (e : E) (es : List E)
       (nm : PyVal),
       (∀ g ∈ pre, probeMatches env encs dir g = false) →
       hasImageExt f = true →
       env.faceEncodings (env.pathJoin dir f) = e :: es →
       (env.compareFaces encs e).contains true = true →
       names.get? ((env.compareFaces encs e).indexOf true) = some nm →
       ∀ post : List String,
         scanProbes env encs names dir (pre ++ f :: post) =
           .ok (.complete nm none)) ∧
    (∀ (E : Type) (env : Env E) (encs : List E) (names : List PyVal)
       (dir : String) (files : List String),
       (∀ g ∈ files, probeMatches env encs dir g = false) →
       scanProbes env encs names dir files =
         .ok (.complete (.str "Unknown") none)) := by
  constructor
  · intro E env encs names dir pre f e es nm hpre hext henc hcon hnm post
    induction pre with
    | nil =>
      simpa using scanProbes_head_match env encs names dir f post e es nm
        hext henc hcon hnm
    | cons g gs ih =>
      rw [List.cons_append,
        scanProbes_skip env encs names dir g _ (hpre g (List.mem_cons_self g gs))]
      exact ih (fun x hx => hpre x (List.mem_cons_of_mem g hx))
  · intro E env encs names dir files hall
    induction files with
    | nil => rfl
    | cons g gs ih =>
      rw [scanProbes_skip env encs names dir g gs (hall g (List.mem_cons_self g gs))]
      exact ih (fun x hx => hall x (List.mem_cons_of_mem g hx))

/-- C4: empty Known Set precondition.  Whenever the loaded
known-encodings list is empty (in particular for the empty allow-list),
the handler returns the HTTP 200 completion "Unknown" with the
no-valid-faces reason, for every probe-path value and every environment
— so the probe directory is never consulted. -/
theorem c4_empty_known_set :
    ∀ (E : Type) (env : Env E) (d : List (String × PyVal))
      (nip kvp avi : PyVal) (kvps : String) (ids : List PyVal),
      d.lookup "new_images_path" = some nip →
      d.lookup "known_visitors_path" = some kvp →
      d.lookup "allowed_visitor_ids" = some avi →
      avi = .list ids → kvp = .str kvps →
      (load_specific_known_faces env kvps ids).1 = [] →
      identify_person_secure env (some d) =
        .ok (.complete (.str "Unknown")
          (some "No valid faces found for the provided visitor IDs.")) := by
  intro E env d nip kvp avi kvps ids h1 h2 h3 havi hkvp hemp
  exact handler_reason_of_empty env d nip kvp avi kvps ids h1 h2 h3 havi hkvp hemp

/-- C5: missing library root degrades gracefully.  If the known-visitors
path is not a directory, `load_specific_known_faces` returns two empty
lists (raising nothing), and the endpoint answers with the HTTP 200
completion "Unknown" carrying a reason — never an error. -/
theorem c5_missing_library_root :
    ∀ (E : Type) (env : Env E) (d : List (String × PyVal))
      (nip kvp avi : PyVal) (kvps : String) (ids : List PyVal),
      d.lookup "new_images_path" = some nip →
      d.lookup "known_visitors_path" = some kvp →
      d.lookup "allowed_visitor_ids" = some avi →
      avi = .list ids → kvp = .str kvps →
      env.isDir kvps = false →
      load_specific_known_faces env kvps ids = ([], []) ∧
      identify_person_secure env (some d) =
        .ok (.complete (.str "Unknown")
          (some "No valid faces found for the provided visitor IDs.")) := by
  intro E env d nip kvp avi kvps ids h1 h2 h3 havi hkvp hdir
  have hload : load_specific_known_faces env kvps ids = ([], []) := by
    simp [load_specific_known_faces, hdir]
  refine ⟨hload, ?_⟩
  exact handler_reason_of_empty env d nip kvp avi kvps ids h1 h2 h3 havi hkvp
    (by rw [hload])

/-- C6: Known Set construction order and content.  The two parallel
lists built by `load_specific_known_faces` are exactly the embedding and
label projections of the spec-side Known Set: records grouped by
allowed-ids order, within each label in directory enumeration order, one
record per face-bearing image (duplicate labels allowed), each carrying
only the first detected embedding of its image, with zero-embedding
images contributing nothing. -/
theorem c6_known_set_construction :
    ∀ (E : Type) (env : Env E) (base : String) (allowed : List PyVal),
      (load_specific_known_faces env base allowed).1 =
        (knownSetSpec env base allowed).map Prod.snd ∧
      (load_specific_known_faces env base allowed).2 =
        (knownSetSpec env base allowed).map Prod.fst := by
  intro E env base allowed
  simp only [load_specific_known_faces, knownSetSpec]
  by_cases hdir : env.isDir base = true
  · rw [if_pos hdir, if_pos hdir, loadIds_eq_spec]
    exact ⟨rfl, rfl⟩
  · rw [if_neg hdir, if_neg hdir]
    exact ⟨rfl, rfl⟩

/-- C7: request validation.  A body missing any of the three required
keys is answered, in every environment (so before any filesystem or
embedding work), with HTTP 400 "Missing required parameters"; a body
whose allowed_visitor_ids value is present but not a list is answered,
in every environment, with HTTP 400 "allowed_visitor_ids must be a
list". -/
theorem c7_request_validation :
    (∀ (E : Type) (env : Env E) (d : List (String × PyVal)),
       ((d.lookup "new_images_path").isNone = true ∨
        (d.lookup "known_visitors_path").isNone = true ∨
        (d.lookup "allowed_visitor_ids").isNone = true) →
       identify_person_secure env (some d) =
         .ok (.badRequest "Missing required parameters")) ∧
    (∀ (E : Type) (env : Env E) (d : List (String × PyVal))
       (nip kvp avi : PyVal),
       d.lookup "new_images_path" = some nip →
       d.lookup "known_visitors_path" = some kvp →
       d.lookup "allowed_visitor_ids" = some avi →
       avi.isList = false →
       identify_person_secure env (some d) =
         .ok (.badRequest "\x27allowed_visitor_ids\x27 must be a list")) := by
  constructor
  · intro E env d hmiss
    simp only [identify_person_secure]
    rcases hmiss with h | h | h <;> simp [h]
  · intro E env d nip kvp avi h1 h2 h3 hnl
    rw [identify_eq_handleValidated env d nip kvp avi h1 h2 h3]
    cases avi with
    | list l => simp [PyVal.isList] at hnl
    | str s => rfl
    | int n => rfl

/-- C8: determinism of the handler across a request sequence.  Serving a
list of request bodies against one unchanged environment, any two
positions holding identical bodies receive identical responses — the
handler threads no state between requests. -/
theorem c8_idempotent_responses :
    ∀ (E : Type) (env : Env E)
      (reqs : List (Option (List (String × PyVal)))) (i j : Nat),
      reqs.get? i = reqs.get? j →
      (serveSequence env reqs).get? i = (serveSequence env reqs).get? j := by
  intro E env reqs i j hij
  rw [serveSequence_eq_map]
  rw [List.get?_eq_getElem?, List.get?_eq_getElem?] at hij
  simp only [List.get?_eq_getElem?, List.getElem?_map, hij]

/-- C9: a falsy parsed body — Python `None` or the empty JSON object —
is rejected with HTTP 400 "Missing required parameters", identically to
a body missing a required field, in every environment. -/
theorem c9_falsy_body_rejected :
    (∀ (E : Type) (env : Env E),
       identify_person_secure env none =
         .ok (.badRequest "Missing required parameters")) ∧
    (∀ (E : Type) (env : Env E),
       identify_person_secure env (some []) =
         .ok (.badRequest "Missing required parameters")) :=
  ⟨fun _ _ => rfl, fun _ _ => rfl⟩

/-- C10: the two lists returned by `load_specific_known_faces` always
have equal length, and therefore, whenever the comparison list the
provider returns is aligned with the known encodings and contains a
`true`, the index of the first `true` is in bounds for the names list
(the lookup is `isSome`). -/
theorem c10_parallel_lists_safe :
    ∀ (E : Type) (env : Env E) (base : String) (allowed : List PyVal),
      (load_specific_known_faces env base allowed).1.length =
        (load_specific_known_faces env base allowed).2.length ∧
      (∀ e : E,
        (env.compareFaces (load_specific_known_faces env base allowed).1 e).length =
          (load_specific_known_faces env base allowed).1.length →
        (env.compareFaces (load_specific_known_faces env base allowed).1 e).contains
          true = true →
        ((load_specific_known_faces env base allowed).2.get?
          ((env.compareFaces (load_specific_known_faces env base allowed).1
            e).indexOf true)).isSome = true) := by
  intro E env base allowed
  refine ⟨load_length env base allowed, ?_⟩
  intro e hlen hcon
  have hmem : true ∈ env.compareFaces (load_specific_known_faces env base allowed).1 e := by
    simpa using hcon
  have hlt := List.indexOf_lt_length.mpr hmem
  rw [hlen, load_length env base allowed] at hlt
  rw [List.get?_eq_get hlt]
  rfl

/-- Witness for C1: in the concrete environment, the only loadable name
for allow-list ["7"] is "7" itself, and a completed identification for
allow-list ["9"] is "Unknown" or "9". -/
theorem c1_allow_list_scoping_witness :
    (PyVal.str "7" ∈ [PyVal.str "7"]) ∧
    (PyVal.str "9" = PyVal.str "Unknown" ∨ PyVal.str "9" ∈ [PyVal.str "9"]) :=
  ⟨c1_allow_list_scoping.1 Nat envW "lib" [PyVal.str "7"] (PyVal.str "7")
     (List.mem_cons_self (PyVal.str "7") []),
   c1_allow_list_scoping.2 Nat envW
     [("new_images_path", PyVal.str "probe"),
      ("known_visitors_path", PyVal.str "lib"),
      ("allowed_visitor_ids", PyVal.list [PyVal.str "9"])]
     [PyVal.str "9"] (PyVal.str "9") none rfl rfl⟩

/-- Witness for C2: with two known entries both matching the probe
embedding, the scan returns the label at index 0. -/
theorem c2_first_match_wins_witness :
    scanProbes envW [2, 2] [PyVal.str "A", PyVal.str "B"] "probe" ["p.jpg"] =
      .ok (.complete (PyVal.str "A") none) :=
  c2_first_match_wins Nat envW [2, 2] [PyVal.str "A", PyVal.str "B"]
    "probe" "p.jpg" [] 2 [] 0 (PyVal.str "A") (by decide) rfl rfl
    (fun j hj => absurd hj (Nat.not_lt_zero j)) rfl

/-- Witness for C3: a matching probe after a non-matching file returns
its label whatever comes later, and a listing with no matching probe
returns "Unknown". -/
theorem c3_probe_scan_termination_witness :
    scanProbes envW [2] [PyVal.str "9"] "probe"
      (["skip.txt"] ++ "p.jpg" :: ["later.jpg"]) =
      .ok (.complete (PyVal.str "9") none) ∧
    scanProbes envW [5] [PyVal.str "7"] "probe" ["p.jpg"] =
      .ok (.complete (PyVal.str "Unknown") none) :=
  ⟨c3_probe_scan_termination.1 Nat envW [2] [PyVal.str "9"] "probe"
     ["skip.txt"] "p.jpg" 2 [] (PyVal.str "9")
     (by intro g hg; rw [List.mem_singleton] at hg; subst hg; decide)
     (by decide) rfl rfl rfl ["later.jpg"],
   c3_probe_scan_termination.2 Nat envW [5] [PyVal.str "7"] "probe" ["p.jpg"]
     (by intro g hg; rw [List.mem_singleton] at hg; subst hg; decide)⟩

/-- Witness for C4: the empty allow-list yields the "Unknown" completion
with the no-valid-faces reason. -/
theorem c4_empty_known_set_witness :
    identify_person_secure envW (some
      [("new_images_path", PyVal.str "probe"),
       ("known_visitors_path", PyVal.str "lib"),
       ("allowed_visitor_ids", PyVal.list [])]) =
      .ok (.complete (.str "Unknown")
        (some "No valid faces found for the provided visitor IDs.")) :=
  c4_empty_known_set Nat envW
    [("new_images_path", PyVal.str "probe"),
     ("known_visitors_path", PyVal.str "lib"),
     ("allowed_visitor_ids", PyVal.list [])]
    (PyVal.str "probe") (PyVal.str "lib") (PyVal.list []) "lib" []
    rfl rfl rfl rfl rfl rfl

/-- Witness for C5: a known-visitors path that is not a directory gives
the empty Known Set and the "Unknown" completion with a reason. -/
theorem c5_missing_library_root_witness :
    load_specific_known_faces envW "nolib" [PyVal.str "7"] = ([], []) ∧
    identify_person_secure envW (some
      [("new_images_path", PyVal.str "probe"),
       ("known_visitors_path", PyVal.str "nolib"),
       ("allowed_visitor_ids", PyVal.list [PyVal.str "7"])]) =
      .ok (.complete (.str "Unknown")
        (some "No valid faces found for the provided visitor IDs.")) :=
  c5_missing_library_root Nat envW
    [("new_images_path", PyVal.str "probe"),
     ("known_visitors_path", PyVal.str "nolib"),
     ("allowed_visitor_ids", PyVal.list [PyVal.str "7"])]
    (PyVal.str "probe") (PyVal.str "nolib") (PyVal.list [PyVal.str "7"])
    "nolib" [PyVal.str "7"] rfl rfl rfl rfl rfl (by decide)

/-- Witness for C7: a body missing new_images_path gets the
missing-parameters rejection, and a non-list allowed_visitor_ids gets
the must-be-a-list rejection. -/
theorem c7_request_validation_witness :
    identify_person_secure envW (some [("foo", PyVal.int 0)]) =
      .ok (.badRequest "Missing required parameters") ∧
    identify_person_secure envW (some
      [("new_images_path", PyVal.str "probe"),
       ("known_visitors_path", PyVal.str "lib"),
       ("allowed_visitor_ids", PyVal.int 3)]) =
      .ok (.badRequest "\x27allowed_visitor_ids\x27 must be a list") :=
  ⟨c7_request_validation.1 Nat envW [("foo", PyVal.int 0)] (Or.inl rfl),
   c7_request_validation.2 Nat envW
     [("new_images_path", PyVal.str "probe"),
      ("known_visitors_path", PyVal.str "lib"),
      ("allowed_visitor_ids", PyVal.int 3)]
     (PyVal.str "probe") (PyVal.str "lib") (PyVal.int 3) rfl rfl rfl rfl⟩

/-- Witness for C8: two identical bodies in a served sequence receive
identical responses. -/
theorem c8_idempotent_responses_witness :
    (serveSequence envW [none, none]).get? 0 =
      (serveSequence envW [none, none]).get? 1 :=
  c8_idempotent_responses Nat envW [none, none] 0 1 rfl

/-- Witness for C10: for allow-list ["7"] the two loaded lists have equal
length and the first-match index of a matching probe embedding is in
bounds for the names list. -/
theorem c10_parallel_lists_safe_witness :
    (load_specific_known_faces envW "lib" [PyVal.str "7"]).1.length =
      (load_specific_known_faces envW "lib" [PyVal.str "7"]).2.length ∧
    ((load_specific_known_faces envW "lib" [PyVal.str "7"]).2.get?
      ((envW.compareFaces
        (load_specific_known_faces envW "lib" [PyVal.str "7"]).1 1).indexOf
          true)).isSome = true :=
  ⟨(c10_parallel_lists_safe Nat envW "lib" [PyVal.str "7"]).1,
   (c10_parallel_lists_safe Nat envW "lib" [PyVal.str "7"]).2 1 rfl rfl⟩
